import Mathlib

/-!
Shallow embedding of src/measure.py: a Bluetooth laser-distance-meter
bridge.  Machine state and control flow are translated directly from the
Python source; BLE writes, sleeps, console output and keystroke injection
become entries of an explicit action trace.  Rational arithmetic stands in
for IEEE-754: every binary32 value is an exact rational, and multiplying a
binary32 value by 1000 is exact in binary64 (the significand of the product
needs at most 34 bits), so on decoded readings the rational pipeline agrees
bit-for-bit with the Python float pipeline.
-/

namespace Disto

/-- Observable effects of the script, in program order.  Console prints are
kept because the bad-state branch is identified by its log line. -/
inductive Action where
  | log (s : String)
  | write (b : Nat)
  | sleep (t : ℚ)
  | typeKeys (s : String)
  | pressEnter
  | disconnect
deriving DecidableEq

/-- measure.py line 23: wait 1.5 seconds before measuring. -/
def AIM_DELAY : ℚ := 3 / 2

/-- The connected BleakClient, abstracted to what the script reads from it:
whether `services.get_characteristic(COMMAND_CHARACTERISTIC_UUID)` finds
the command characteristic. -/
structure Client where
  hasCmdChar : Bool
deriving DecidableEq

/-- measure.py lines 85-97 (`do_measure`): laser on (0x6F), aim delay,
measure (0x67); if the command characteristic is missing, log and return
without writing. -/
def do_measure (c : Client) : List Action :=
  if c.hasCmdChar then
    [.write 0x6F, .sleep AIM_DELAY, .write 0x67]
  else
    [.log "Command characteristic not found."]

/-- measure.py lines 99-107 (`clear_device`): laser off (0x70); if the
command characteristic is missing, log and return without writing. -/
def clear_device (c : Client) : List Action :=
  if c.hasCmdChar then
    [.write 0x70]
  else
    [.log "Command characteristic not found."]

/-- A binary32 value as Python sees it after `struct.unpack`.  A finite
value is kept as an exact scaled integer: `finite neg num` is the number
num / 2^150 with the given sign.  Every binary32 magnitude has this form:
a biased exponent e >= 1 gives (2^23 + frac) / 2^23 * 2^(e - 127)
= (2^23 + frac) * 2^e / 2^150, and a subnormal gives
frac / 2^23 * 2^(-126) = frac * 2 / 2^150. -/
inductive F32 where
  | finite (neg : Bool) (num : ℕ)
  | infty (neg : Bool)
  | nan
deriving DecidableEq

/-- The common denominator of the scaled-integer representation. -/
def F32_DEN : ℕ := 2 ^ 150

/-- IEEE-754 binary32 semantics of a 32-bit word. -/
def decodeWord (w : Nat) : F32 :=
  let sign : ℕ := w / 2 ^ 31
  let exp : ℕ := (w / 2 ^ 23) % 256
  let frac : ℕ := w % 2 ^ 23
  if exp = 255 then
    if frac = 0 then .infty (sign == 1) else .nan
  else
    .finite (sign == 1) (if exp = 0 then frac * 2 else (2 ^ 23 + frac) * 2 ^ exp)

/-- measure.py line 140: `struct.unpack("<f", data)` on a little-endian
4-byte payload; any other length raises struct.error (modelled as none). -/
def decode_f32le : List Nat → Option F32
  | [b0, b1, b2, b3] => some (decodeWord (b0 + 256 * b1 + 65536 * b2 + 16777216 * b3))
  | _ => none

/-- Python `f"{x:.1f}"` on the exact value x = (sign) num / den of a
finite binary float, den > 0: round-half-even of 10 * num / den, then the
digits split around the decimal point.  printf rounds the exact binary
value half to even; rounding the magnitude and prefixing the sign is the
same, the tie rule being symmetric. -/
def format1f_num (neg : Bool) (num den : ℕ) : String :=
  let t := num * 10
  let q := t / den
  let r := t % den
  let n := if 2 * r < den then q
           else if den < 2 * r then q + 1
           else if q % 2 = 0 then q else q + 1
  (if neg then "-" else "") ++ toString (n / 10) ++ "." ++ toString (n % 10)

/-- Python `f"{v * 1000:.1f}"` for an unpacked binary32 value v: the
millimeter string the script types.  For every finite binary32 value the
binary64 product v * 1000 is exact (its significand needs at most 34
bits), so the exact computation matches the float one bit for bit. -/
def fmt_mm : F32 → String
  | .finite neg num => format1f_num neg (num * 1000) F32_DEN
  | .infty neg => if neg then "-inf" else "inf"
  | .nan => "nan"

/-- The arbiter state shared across notification callbacks:
`button_clicked` (the asyncio.Event, line 167) is the spec's
awaitingMeasurement, `miss_counter` (line 176) the spec's missCount. -/
structure ArbState where
  button_clicked : Bool
  miss_counter : Nat
deriving DecidableEq

/-- Initial arbiter state: event clear, counter zero. -/
def initState : ArbState := { button_clicked := false, miss_counter := 0 }

/-- Result of one callback invocation: the shared state afterwards, the
actions performed, and whether an exception escaped the callback (Python:
struct.error from a wrong-size payload). -/
structure StepResult where
  state : ArbState
  acts : List Action
  raised : Bool
deriving DecidableEq

/-- measure.py lines 112-150: one invocation of the notification callback
built by `notification_wrapper`.  Events are processed one at a time (the
asyncio loop serializes the atomic sections; see spec section 5).  Note
three facts read off the source: the bad-state branch (line 125) does not
reset `miss_counter`; the reading branch zeroes `miss_counter` (line 139)
before `struct.unpack`, so a wrong-size payload leaves `button_clicked`
set (line 149 is never reached); the payload plays no role in the
`button_clicked`-clear branch. -/
def handle_distance_notification (c : Client) (s : ArbState) (data : List Nat) : StepResult :=
  if s.button_clicked = false then
    let m := s.miss_counter + 1
    if 1 < m then
      { state := { button_clicked := false, miss_counter := m },
        acts := .log "received event" :: .log "bad state" :: clear_device c,
        raised := false }
    else
      { state := { button_clicked := true, miss_counter := m },
        acts := .log "received event" :: do_measure c,
        raised := false }
  else
    match decode_f32le data with
    | none =>
        { state := { button_clicked := true, miss_counter := 0 },
          acts := [.log "received event"],
          raised := true }
    | some v =>
        let out := fmt_mm v
        { state := { button_clicked := false, miss_counter := 0 },
          acts := [.log "received event", .log ("Distance: " ++ out ++ " mm"),
                   .typeKeys out, .pressEnter],
          raised := false }

/-- Process a list of notification events in order.  An exception escaping
one callback is logged by the event loop and does not stop notification
delivery, so the fold continues regardless of `raised`. -/
def runEvents (c : Client) (s : ArbState) : List (List Nat) → ArbState × List Action
  | [] => (s, [])
  | e :: rest =>
    let r := handle_distance_notification c s e
    let k := runEvents c r.state rest
    (k.1, r.acts ++ k.2)

/-- The arbiter state after a list of events. -/
def stateAfter (c : Client) (s : ArbState) (events : List (List Nat)) : ArbState :=
  (runEvents c s events).1

/-- The guard of the forced-reset branch (lines 119 and 125): the event is
clear and the incremented counter exceeds 1.  Exactly when this holds does
the callback log "bad state" and call `clear_device`. -/
def takesBadBranch (s : ArbState) : Bool :=
  !s.button_clicked && decide (1 < s.miss_counter + 1)

/-- Action classifiers used to state the claims (spelled out constructor
by constructor so they reduce definitionally on any action). -/
def isMeasureWrite : Action → Bool
  | .write b => b == 0x67
  | .log _ => false
  | .sleep _ => false
  | .typeKeys _ => false
  | .pressEnter => false
  | .disconnect => false

def isLaserOffWrite : Action → Bool
  | .write b => b == 0x70
  | .log _ => false
  | .sleep _ => false
  | .typeKeys _ => false
  | .pressEnter => false
  | .disconnect => false

def isTypeKeys : Action → Bool
  | .typeKeys _ => true
  | .log _ => false
  | .write _ => false
  | .sleep _ => false
  | .pressEnter => false
  | .disconnect => false

def isEnter : Action → Bool
  | .pressEnter => true
  | .log _ => false
  | .write _ => false
  | .sleep _ => false
  | .typeKeys _ => false
  | .disconnect => false

def isDisconnect : Action → Bool
  | .disconnect => true
  | .log _ => false
  | .write _ => false
  | .sleep _ => false
  | .typeKeys _ => false
  | .pressEnter => false

def countMeasureWrites (acts : List Action) : Nat := acts.countP isMeasureWrite

def countDisarms (acts : List Action) : Nat := acts.countP isLaserOffWrite

def countTyped (acts : List Action) : Nat := acts.countP isTypeKeys

def countEnters (acts : List Action) : Nat := acts.countP isEnter

def countDisconnects (acts : List Action) : Nat := acts.countP isDisconnect

/-- A scanned BLE advertiser as the script reads it: address, name, and the
advertised service-UUID strings (`d.metadata["uuids"]`). -/
structure BLEDevice where
  address : String
  devName : String
  uuids : List String
deriving DecidableEq

/-- Python `str.lower` on the ASCII UUID strings involved: lowercase the
string character by character (written over the character list, which
agrees with `String.map` and keeps the definition structurally
recursive). -/
def strLower (s : String) : String := ⟨s.data.map Char.toLower⟩

/-- measure.py line 39: the default service filter. -/
def DEFAULT_SERVICE_UUID : String := "3ab10100-f831-4395-b29d-570977d5bf94"

/-- measure.py lines 56-60: the first scanned device for which
`service_uuid.lower() in d.metadata["uuids"]` holds; the lowercasing is
applied to the target only, the advertised strings are compared verbatim. -/
def findTarget (serviceUuid : String) (devices : List BLEDevice) : Option BLEDevice :=
  devices.find? (fun d => d.uuids.any (fun u => u = strLower serviceUuid))

/-- measure.py lines 39-76 (`scan_and_connect`): none when no advertiser
matches (the script logs "Target device not found." and returns None, and
`main` then exits without connecting). -/
def scan_and_connect (serviceUuid : String) (devices : List BLEDevice) : Option BLEDevice :=
  findTarget serviceUuid devices

/-- How the session body ends: runs to the cancellation signal, an
exception caught by `except Exception` after n observed actions, or a
cancellation after n observed actions (not caught; the finally block still
runs). -/
inductive MainOutcome where
  | normal
  | errored (n : Nat)
  | cancelled (n : Nat)

/-- measure.py lines 183-188: the try-block of `main` once connected:
`clear_device`, then the notification loop over the delivered events. -/
def sessionBody (c : Client) (events : List (List Nat)) : List Action :=
  clear_device c ++ (runEvents c initState events).2

/-- The actions of the try-block that are observed under the given
outcome: all of them, or a prefix cut at the exception or cancellation
point (plus the `except` log line when the exception is caught). -/
def bodyObserved (body : List Action) : MainOutcome → List Action
  | .normal => body
  | .errored n => body.take n ++ [.log "Error:"]
  | .cancelled n => body.take n

/-- measure.py lines 179-192 (`main`): nothing happens without a
connection; with one, the try-block runs to its outcome and the finally
block always performs the disconnect. -/
def main_model (scanResult : Option Client) (events : List (List Nat)) (o : MainOutcome) :
    List Action :=
  match scanResult with
  | none => []
  | some c => bodyObserved (sessionBody c events) o ++ [.disconnect]

/-- Well-formed delivery in the sense of claim C10: every event that
arrives while `button_clicked` is set carries exactly 4 bytes. -/
def wfEvents (c : Client) : ArbState → List (List Nat) → Bool
  | _, [] => true
  | s, e :: rest =>
    (!s.button_clicked || e.length == 4) &&
      wfEvents c (handle_distance_notification c s e).state rest

/-- The per-state invariant of claim C10. -/
def invAwaitMiss (s : ArbState) : Bool :=
  !s.button_clicked || s.miss_counter == 1

/-- The invariant of claim C10 at every point of a run: before the first
event, between any two events, and after the last. -/
def invHolds (c : Client) : ArbState → List (List Nat) → Bool
  | s, [] => invAwaitMiss s
  | s, e :: rest =>
    invAwaitMiss s && invHolds c (handle_distance_notification c s e).state rest

def isWrite : Action → Bool
  | .write _ => true
  | .log _ => false
  | .sleep _ => false
  | .typeKeys _ => false
  | .pressEnter => false
  | .disconnect => false

def countWrites (acts : List Action) : Nat := acts.countP isWrite

/-- The reachability invariant of the arbiter from the initial state: with
the flag set the counter is at most 1, with it clear the counter is 0. -/
def good (s : ArbState) : Prop :=
  (s.button_clicked = true ∧ s.miss_counter ≤ 1) ∨
    (s.button_clicked = false ∧ s.miss_counter = 0)

/-- The absorbing region entered by the forced-reset branch: flag clear
and counter at least 2. -/
def Bstate (s : ArbState) : Prop :=
  s.button_clicked = false ∧ 2 ≤ s.miss_counter

/-- The sharpened invariant of claim C10 under well-formed delivery. -/
def strictGood (s : ArbState) : Prop :=
  (s.button_clicked = true ∧ s.miss_counter = 1) ∨
    (s.button_clicked = false ∧ s.miss_counter = 0)

/-! ### Basic lemmas about the decoder and the fold over events -/

theorem decode_none {data : List Nat} (h : data.length ≠ 4) : decode_f32le data = none := by
  rcases data with _ | ⟨a, _ | ⟨b, _ | ⟨c, _ | ⟨d, _ | ⟨e, tl⟩⟩⟩⟩⟩ <;>
    first
      | rfl
      | (exfalso; simp [List.length_cons] at h)

theorem decode_len4 (data : List Nat) (h : data.length = 4) :
    ∃ v, decode_f32le data = some v := by
  rcases data with _ | ⟨a, _ | ⟨b, _ | ⟨c, _ | ⟨d, _ | ⟨e, tl⟩⟩⟩⟩⟩ <;>
    first
      | exact ⟨_, rfl⟩
      | (exfalso; simp [List.length_cons] at h)

theorem stateAfter_nil (c : Client) (s : ArbState) : stateAfter c s [] = s := rfl

theorem stateAfter_cons (c : Client) (s : ArbState) (e : List Nat) (rest : List (List Nat)) :
    stateAfter c s (e :: rest) =
      stateAfter c (handle_distance_notification c s e).state rest := rfl

theorem stateAfter_append (c : Client) (s : ArbState) (l1 l2 : List (List Nat)) :
    stateAfter c s (l1 ++ l2) = stateAfter c (stateAfter c s l1) l2 := by
  induction l1 generalizing s with
  | nil => rfl
  | cons e rest ih => simpa [stateAfter_cons] using ih (handle_distance_notification c s e).state

theorem stateAfter_take_succ (c : Client) (s : ArbState) {events : List (List Nat)} {i : Nat}
    (h : i < events.length) :
    stateAfter c s (events.take (i + 1)) =
      (handle_distance_notification c (stateAfter c s (events.take i))
        (events.get ⟨i, h⟩)).state := by
  have ht : events.take (i + 1) = events.take i ++ [events.get ⟨i, h⟩] := by
    rw [List.take_succ]
    congr 1
    rw [List.getElem?_eq_getElem h]
    rfl
  rw [ht, stateAfter_append, stateAfter_cons, stateAfter_nil]

/-! ### The reachability invariant of the arbiter

From the initial state the counter never passes 1: the only increment
happens when the event flag is clear, every state with a clear flag and a
reachable history has a zero counter, and the forced-reset guard therefore
never fires from the initial state. -/

theorem good_init : good initState := Or.inr ⟨rfl, rfl⟩

theorem good_step (c : Client) (s : ArbState) (e : List Nat) (h : good s) :
    good (handle_distance_notification c s e).state := by
  rcases h with ⟨hb, hm⟩ | ⟨hb, hm⟩
  · rcases hd : decode_f32le e with _ | v <;>
      simp [handle_distance_notification, hb, hd, good]
  · simp [handle_distance_notification, hb, hm, good]

theorem good_not_bad (s : ArbState) (h : good s) : takesBadBranch s = false := by
  rcases h with ⟨hb, _⟩ | ⟨_, hm⟩
  · simp [takesBadBranch, hb]
  · simp [takesBadBranch, hm]

theorem good_run (c : Client) (events : List (List Nat)) (s : ArbState) (h : good s) :
    good (stateAfter c s events) := by
  induction events generalizing s with
  | nil => exact h
  | cons e rest ih => exact stateAfter_cons c s e rest ▸ ih _ (good_step c s e h)

/-! ### The forced-reset branch and its absorbing aftermath

The guard does not zero `miss_counter`; once it has fired, every later
state has a clear flag and a counter at least 2, so every later event
fires it again and the reading branch is never reached. -/

theorem bad_cond (s : ArbState) (h : takesBadBranch s = true) :
    s.button_clicked = false ∧ 1 ≤ s.miss_counter := by
  simp [takesBadBranch] at h
  exact ⟨h.1, by omega⟩

theorem bad_branch_result (c : Client) (s : ArbState) (e : List Nat)
    (h : takesBadBranch s = true) :
    handle_distance_notification c s e =
      { state := { button_clicked := false, miss_counter := s.miss_counter + 1 },
        acts := .log "received event" :: .log "bad state" :: clear_device c,
        raised := false } := by
  obtain ⟨hb, hm⟩ := bad_cond s h
  simp [handle_distance_notification, hb, Nat.lt_succ_of_le hm]

theorem bad_step_B (c : Client) (s : ArbState) (e : List Nat)
    (h : takesBadBranch s = true) :
    Bstate (handle_distance_notification c s e).state := by
  obtain ⟨hb, hm⟩ := bad_cond s h
  rw [bad_branch_result c s e h]
  refine ⟨rfl, ?_⟩
  show 2 ≤ s.miss_counter + 1
  omega

theorem B_bad (s : ArbState) (h : Bstate s) : takesBadBranch s = true := by
  obtain ⟨hb, hm⟩ := h
  simp [takesBadBranch, hb]
  omega

theorem B_run (c : Client) (events : List (List Nat)) (s : ArbState) (h : Bstate s) :
    Bstate (stateAfter c s events) := by
  induction events generalizing s with
  | nil => exact h
  | cons e rest ih =>
    exact stateAfter_cons c s e rest ▸ ih _ (bad_step_B c s e (B_bad s h))

theorem bad_acts_counts (c : Client) (s : ArbState) (e : List Nat)
    (h : takesBadBranch s = true) :
    countMeasureWrites (handle_distance_notification c s e).acts = 0 ∧
      countTyped (handle_distance_notification c s e).acts = 0 ∧
      countEnters (handle_distance_notification c s e).acts = 0 := by
  rw [bad_branch_result c s e h]
  rcases c with ⟨hc⟩
  cases hc <;>
    simp [clear_device, countMeasureWrites, countTyped, countEnters,
      List.countP_cons, isMeasureWrite, isTypeKeys, isEnter]

/-! ### The handler and the event fold never disconnect -/

theorem countDisconnects_handle (c : Client) (s : ArbState) (e : List Nat) :
    countDisconnects (handle_distance_notification c s e).acts = 0 := by
  rcases c with ⟨hc⟩
  by_cases hb : s.button_clicked = false
  · by_cases hm : 1 < s.miss_counter + 1
    · simp only [handle_distance_notification, hb, hm, if_true, if_pos]
      cases hc <;> rfl
    · simp only [handle_distance_notification, hb, if_true, if_pos, if_neg hm]
      cases hc <;> rfl
  · rcases hd : decode_f32le e with _ | v
    · simp only [handle_distance_notification, hb, if_neg, hd]
      rfl
    · simp only [handle_distance_notification, hb, if_neg, hd]
      simp [countDisconnects, List.countP_cons, isDisconnect]

theorem countDisconnects_run (c : Client) (events : List (List Nat)) (s : ArbState) :
    countDisconnects (runEvents c s events).2 = 0 := by
  induction events generalizing s with
  | nil => rfl
  | cons e rest ih =>
    have h1 := countDisconnects_handle c s e
    have h2 := ih (handle_distance_notification c s e).state
    simp only [runEvents, countDisconnects, List.countP_append] at h1 h2 ⊢
    omega

theorem countDisconnects_body (c : Client) (events : List (List Nat)) :
    countDisconnects (sessionBody c events) = 0 := by
  have h1 : countDisconnects (clear_device c) = 0 := by
    rcases c with ⟨hc⟩
    cases hc <;> rfl
  have h2 := countDisconnects_run c events initState
  simp only [sessionBody, countDisconnects, List.countP_append] at h1 h2 ⊢
  omega

/-! ### The sharpened invariant under well-formed delivery -/

theorem strict_invAwaitMiss (s : ArbState) (h : strictGood s) : invAwaitMiss s = true := by
  rcases h with ⟨hb, hm⟩ | ⟨hb, hm⟩
  · simp [invAwaitMiss, hb, hm]
  · simp [invAwaitMiss, hb]

theorem strict_step (c : Client) (s : ArbState) (e : List Nat) (h : strictGood s)
    (hw : (!s.button_clicked || e.length == 4) = true) :
    strictGood (handle_distance_notification c s e).state := by
  rcases h with ⟨hb, hm⟩ | ⟨hb, hm⟩
  · have hl : e.length = 4 := by simpa [hb] using hw
    obtain ⟨v, hv⟩ := decode_len4 e hl
    simp [handle_distance_notification, hb, hv, strictGood]
  · simp [handle_distance_notification, hb, hm, strictGood]

theorem strict_run (c : Client) (events : List (List Nat)) (s : ArbState)
    (h : strictGood s) (hw : wfEvents c s events = true) :
    invHolds c s events = true := by
  induction events generalizing s with
  | nil => exact strict_invAwaitMiss s h
  | cons e rest ih =>
    simp only [wfEvents, Bool.and_eq_true] at hw
    simp only [invHolds, Bool.and_eq_true]
    exact ⟨strict_invAwaitMiss s h, ih _ (strict_step c s e h hw.1) hw.2⟩

/-! ### The claims -/

/-- Claim C1: over every event sequence processed from the initial state,
the miss counter never exceeds 2, and any step that takes the forced-reset
branch leaves the flag clear and the counter zero.  From the initial state
the counter in fact never passes 1, so the guard never fires and the
second conjunct holds with its left disjunct throughout. -/
theorem arbiter_miss_bound (c : Client) (events : List (List Nat)) :
    (∀ i : Fin (events.length + 1),
      (stateAfter c initState (events.take i.val)).miss_counter ≤ 2) ∧
    (∀ i : Fin events.length,
      takesBadBranch (stateAfter c initState (events.take i.val)) = false ∨
        (handle_distance_notification c (stateAfter c initState (events.take i.val))
          (events.get i)).state = initState) := by
  constructor
  · intro i
    rcases good_run c (events.take i.val) initState good_init with ⟨_, hm⟩ | ⟨_, hm⟩ <;> omega
  · intro i
    exact Or.inl (good_not_bad _ (good_run c (events.take i.val) initState good_init))

/-- Claim C2, counterexample: a 3-byte payload arriving while the flag is
set does not leave the state at flag clear, counter zero: the unpack
failure aborts the callback before the clear on line 149 runs. -/
theorem malformed_payload_state_ce :
    (handle_distance_notification ⟨true⟩ ⟨true, 1⟩ [0, 0, 0]).state ≠ initState := by
  decide

/-- Claim C2 as amended: a payload of length other than 4 bytes arriving
while the flag is set is discarded: the counter is zeroed, no keystroke
and no write is emitted, the exception stays inside the callback so event
processing continues, but the flag remains set. -/
theorem malformed_payload_behavior (c : Client) (s : ArbState) (data : List Nat)
    (hb : s.button_clicked = true) (hl : data.length ≠ 4) :
    handle_distance_notification c s data =
      { state := { button_clicked := true, miss_counter := 0 },
        acts := [.log "received event"], raised := true } := by
  have hb' : ¬ s.button_clicked = false := by simp [hb]
  simp [handle_distance_notification, hb', decode_none hl]

theorem malformed_payload_behavior_witness :
    (⟨true, 1⟩ : ArbState).button_clicked = true ∧ ([0, 0, 0] : List Nat).length ≠ 4 ∧
      handle_distance_notification ⟨true⟩ ⟨true, 1⟩ [0, 0, 0] =
        { state := { button_clicked := true, miss_counter := 0 },
          acts := [.log "received event"], raised := true } :=
  ⟨rfl, by decide, malformed_payload_behavior ⟨true⟩ ⟨true, 1⟩ [0, 0, 0] rfl (by decide)⟩

/-- Claim C3, evaluated at its own scenario: two notifications with no
reading consumed in between, from the initial state.  The second event is
classified as a reading because the flag is still set, so the laser-off
command is never written, the measure pair fires once on the first event,
nothing is typed, and the final state is flag set with counter 0 -- not
the disarm-once, back-to-initial outcome the claim states. -/
theorem double_echo_eval :
    (runEvents ⟨true⟩ initState [[], []]).1 = ⟨true, 0⟩ ∧
      countDisarms (runEvents ⟨true⟩ initState [[], []]).2 = 0 ∧
      countMeasureWrites (runEvents ⟨true⟩ initState [[], []]).2 = 1 ∧
      countTyped (runEvents ⟨true⟩ initState [[], []]).2 = 0 ∧
      countEnters (runEvents ⟨true⟩ initState [[], []]).2 = 0 := by
  decide

/-- Claim C4: one echo then one well-formed 4-byte reading of 0.5 m, from
the initial state: the laser-on, aim-delay, measure sequence fires once,
exactly one string is typed ("500.0") followed by one Enter, and the
state returns to the initial one. -/
theorem echo_then_reading_eval :
    runEvents ⟨true⟩ initState [[], [0x00, 0x00, 0x00, 0x3F]] =
      (initState,
        [.log "received event", .write 0x6F, .sleep AIM_DELAY, .write 0x67,
          .log "received event", .log "Distance: 500.0 mm",
          .typeKeys "500.0", .pressEnter]) ∧
      countMeasureWrites (runEvents ⟨true⟩ initState [[], [0x00, 0x00, 0x00, 0x3F]]).2 = 1 ∧
      countTyped (runEvents ⟨true⟩ initState [[], [0x00, 0x00, 0x00, 0x3F]]).2 = 1 ∧
      countEnters (runEvents ⟨true⟩ initState [[], [0x00, 0x00, 0x00, 0x3F]]).2 = 1 := by
  with_unfolding_all decide

/-- Claim C5: from any arbiter state, once an event takes the forced-reset
branch, at every later point the counter stays at least 2, every later
event takes the branch again, and no later event writes the measure
command or types anything. -/
theorem bad_state_absorbing (c : Client) (s0 : ArbState) (events : List (List Nat))
    (i : Fin events.length)
    (hbad : takesBadBranch (stateAfter c s0 (events.take i.val)) = true)
    (j : Fin events.length) (hij : i.val < j.val) :
    2 ≤ (stateAfter c s0 (events.take j.val)).miss_counter ∧
      takesBadBranch (stateAfter c s0 (events.take j.val)) = true ∧
      countMeasureWrites
        (handle_distance_notification c (stateAfter c s0 (events.take j.val))
          (events.get j)).acts = 0 ∧
      countTyped
        (handle_distance_notification c (stateAfter c s0 (events.take j.val))
          (events.get j)).acts = 0 := by
  have h1 : Bstate (stateAfter c s0 (events.take (i.val + 1))) := by
    rw [stateAfter_take_succ c s0 i.isLt]
    exact bad_step_B _ _ _ hbad
  have hsplit : events.take j.val =
      events.take (i.val + 1) ++ (events.drop (i.val + 1)).take (j.val - (i.val + 1)) := by
    have hj : j.val = (i.val + 1) + (j.val - (i.val + 1)) := by omega
    rw [← List.take_add]
    rw [← hj]
  have hB : Bstate (stateAfter c s0 (events.take j.val)) := by
    rw [hsplit, stateAfter_append]
    exact B_run c _ _ h1
  obtain ⟨hcm, hct, _⟩ := bad_acts_counts c (stateAfter c s0 (events.take j.val))
    (events.get j) (B_bad _ hB)
  exact ⟨hB.2, B_bad _ hB, hcm, hct⟩

theorem bad_state_absorbing_witness :
    takesBadBranch (stateAfter ⟨true⟩ ⟨false, 1⟩ ([[], []].take 0)) = true ∧
      (0 : Nat) < 1 ∧
      (2 ≤ (stateAfter ⟨true⟩ ⟨false, 1⟩ ([[], []].take 1)).miss_counter ∧
        takesBadBranch (stateAfter ⟨true⟩ ⟨false, 1⟩ ([[], []].take 1)) = true ∧
        countMeasureWrites (handle_distance_notification ⟨true⟩
          (stateAfter ⟨true⟩ ⟨false, 1⟩ ([[], []].take 1))
          ([[], []].get ⟨1, by decide⟩)).acts = 0 ∧
        countTyped (handle_distance_notification ⟨true⟩
          (stateAfter ⟨true⟩ ⟨false, 1⟩ ([[], []].take 1))
          ([[], []].get ⟨1, by decide⟩)).acts = 0) :=
  ⟨by decide, by decide,
    bad_state_absorbing ⟨true⟩ ⟨false, 1⟩ [[], []] ⟨0, by decide⟩ (by decide)
      ⟨1, by decide⟩ (by decide)⟩

/-- Claim C6, evaluated: the scan filter lowercases only the target UUID
and compares the advertised strings verbatim, so an advertiser carrying
the target UUID in upper case is not matched and the scan yields no
session, while the same advertiser in lower case is matched; the inline
comment of the source nonetheless announces a case-insensitive
comparison. -/
theorem scan_case_sensitivity_eval :
    scan_and_connect DEFAULT_SERVICE_UUID
        [⟨"AA:BB:CC:DD:EE:FF", "DISTO D2", ["3AB10100-F831-4395-B29D-570977D5BF94"]⟩] =
        none ∧
      scan_and_connect DEFAULT_SERVICE_UUID
        [⟨"AA:BB:CC:DD:EE:FF", "DISTO D2", ["3ab10100-f831-4395-b29d-570977d5bf94"]⟩] =
        some ⟨"AA:BB:CC:DD:EE:FF", "DISTO D2", ["3ab10100-f831-4395-b29d-570977d5bf94"]⟩ := by
  with_unfolding_all decide

/-- Claim C7: the little-endian payload 19 04 9E 3F decodes to
10355737 * 2^127 / 2^150 = 10355737 / 2^23, the binary32 value nearest to
1.2345; consuming it while the flag is set types exactly the string
"1234.5" (the value times 1000, one decimal place) followed by Enter, and
clears the state. -/
theorem roundtrip_1_2345 :
    decode_f32le [0x19, 0x04, 0x9E, 0x3F] = some (.finite false (10355737 * 2 ^ 127)) ∧
      handle_distance_notification ⟨true⟩ ⟨true, 1⟩ [0x19, 0x04, 0x9E, 0x3F] =
        { state := initState,
          acts := [.log "received event", .log "Distance: 1234.5 mm",
            .typeKeys "1234.5", .pressEnter],
          raised := false } := by
  decide

/-- Claim C8, counterexample: an arm invocation on a session whose command
characteristic lookup fails performs no characteristic write at all, so
not every invocation performs exactly two writes. -/
theorem arm_missing_char_ce : ¬ countWrites (do_measure ⟨false⟩) = 2 := by
  decide

/-- Claim C8 as amended: when the command characteristic is found, every
arm invocation performs exactly the two writes in order -- laser-on 0x6F,
the 1.5-second aim delay, then measure 0x67 -- and when it is not found,
arm logs and performs no write. -/
theorem arm_write_sequence :
    do_measure ⟨true⟩ = [.write 0x6F, .sleep AIM_DELAY, .write 0x67] ∧
      AIM_DELAY = 3 / 2 ∧
      do_measure ⟨false⟩ = [.log "Command characteristic not found."] := by
  with_unfolding_all decide

/-- Claim C9: whatever the scan outcome, the delivered events, and how the
session body ends (running to the cancellation signal, an exception caught
by the except clause, or a cancellation cutting the body short at any
point), the disconnect is attempted exactly once when a connection was
established and never otherwise. -/
theorem disconnect_exactly_once (scanResult : Option Client) (events : List (List Nat))
    (o : MainOutcome) :
    countDisconnects (main_model scanResult events o) =
      if scanResult.isSome then 1 else 0 := by
  cases scanResult with
  | none => rfl
  | some c =>
    have hbody : countDisconnects (sessionBody c events) = 0 := countDisconnects_body c events
    have hobs : countDisconnects (bodyObserved (sessionBody c events) o) = 0 := by
      cases o with
      | normal => exact hbody
      | errored n =>
        have hle : (sessionBody c events).countP isDisconnect ≤ 0 := by
          simpa [countDisconnects] using
            le_of_le_of_eq (le_refl _) hbody
        have hsub : ((sessionBody c events).take n).countP isDisconnect ≤
            (sessionBody c events).countP isDisconnect :=
          List.Sublist.countP_le _ (List.take_sublist n _)
        have hcut : (([Action.log "Error:"] : List Action)).countP isDisconnect = 0 := rfl
        simp only [bodyObserved, countDisconnects, List.countP_append] at *
        omega
      | cancelled n =>
        have hsub : ((sessionBody c events).take n).countP isDisconnect ≤
            (sessionBody c events).countP isDisconnect :=
          List.Sublist.countP_le _ (List.take_sublist n _)
        simp only [bodyObserved, countDisconnects] at *
        omega
    show countDisconnects (bodyObserved (sessionBody c events) o ++ [Action.disconnect]) = 1
    have hone : ([Action.disconnect]).countP isDisconnect = 1 := rfl
    simp only [countDisconnects, List.countP_append] at hobs ⊢
    omega

/-- Claim C10: if every event delivered while the flag is set carries a
4-byte payload, then at every point of the run -- before the first event,
between events, and after the last -- a set flag implies the miss counter
equals exactly 1. -/
theorem wf_await_implies_one (c : Client) (events : List (List Nat))
    (hw : wfEvents c initState events = true) :
    invHolds c initState events = true :=
  strict_run c events initState (Or.inr ⟨rfl, rfl⟩) hw

theorem wf_await_implies_one_witness :
    wfEvents ⟨true⟩ initState [[], [0x00, 0x00, 0x00, 0x3F]] = true ∧
      invHolds ⟨true⟩ initState [[], [0x00, 0x00, 0x00, 0x3F]] = true :=
  ⟨by decide, wf_await_implies_one ⟨true⟩ [[], [0x00, 0x00, 0x00, 0x3F]] (by decide)⟩

end Disto
